import Mathlib

/-!
Shallow embedding of `crates/cairo-lang-sierra-to-casm/src/compiler.rs` (the
Sierra → CASM compiler driver) and proofs about it.

External collaborators of the driver (the program registry, the reference
environment / annotations module, the per-libfunc emitters, the relocator and
the enum-selector helper) live in other crates; they are modelled as opaque
data and as function parameters bundled in an `Externals` structure, exactly at
the interface the driver uses.  Machine integers are modelled as `Nat`/`Int`
(no value in the driver is subject to intentional wrapping).  Fallible Rust
code is modelled with `Except`; a distinguished `CompileFailure.panic` value
models Rust panics (`unwrap`, out-of-bounds indexing, `zip_eq` length
mismatch, assertion failures), which are distinct from returned
`CompilationError` values.
-/

namespace SierraToCasm

/-- Sierra variable id (interned ids modelled as naturals). -/
abbrev VarId := Nat

/-- Concrete type id. -/
abbrev ConcreteTypeId := Nat

/-- Concrete libfunc id. -/
abbrev ConcreteLibfuncId := Nat

/-- `GenericArg` — only the variants inspected by `extract_const_value`
are distinguished; all others collapse to `OtherArg`. -/
inductive GenericArg where
  /-- `GenericArg::Type` -/
  | TypeArg (ty : ConcreteTypeId)
  /-- `GenericArg::Value` -/
  | ValueArg (v : Int)
  /-- any other `GenericArg` variant -/
  | OtherArg
deriving DecidableEq, Repr

/-- The payload of `CoreTypeConcrete::Const`: the wrapped inner type and the
declaration's generic arguments. -/
structure ConstConcreteType where
  inner_ty : ConcreteTypeId
  inner_data : List GenericArg
deriving DecidableEq, Repr

/-- `CoreTypeConcrete` — only the shapes `extract_const_value` matches on are
distinguished (`Const`, `Struct`, `Enum`); every other concrete type collapses
to `OtherType` (handled by the catch-all arm in the source). -/
inductive CoreTypeConcrete where
  | Const (const_type : ConstConcreteType)
  | Struct
  | Enum (variants : List ConcreteTypeId)
  | OtherType
deriving DecidableEq, Repr

/-- `SierraApChange` — the driver only distinguishes `BranchAlign`. -/
inductive SierraApChange where
  | BranchAlign
  | OtherApChange
deriving DecidableEq, Repr

/-- A branch signature: the branch's output types (`vars`) and its declared
AP-change behaviour. -/
structure BranchSignature where
  vars : List ConcreteTypeId
  ap_change : SierraApChange
deriving DecidableEq, Repr

/-- The signature data of a concrete libfunc, at the granularity the driver
reads it: parameter types, branch signatures, and the (externally computed)
fallthrough branch index. -/
structure LibfuncSignature where
  param_types : List ConcreteTypeId
  branch_signatures : List BranchSignature
  fallthrough_idx : Option Nat
deriving DecidableEq, Repr

/-- `CoreConcreteLibfunc` — the driver only distinguishes
`Const(ConstConcreteLibfunc::AsBox)`; every other libfunc collapses to
`Other`, keeping its signature. -/
inductive CoreConcreteLibfunc where
  /-- `CoreConcreteLibfunc::Const(ConstConcreteLibfunc::AsBox(..))` with its
  `segment_id`, `const_type` and signature. -/
  | ConstAsBox (segment_id : Nat) (const_type : ConcreteTypeId) (sig : LibfuncSignature)
  | Other (sig : LibfuncSignature)
deriving DecidableEq, Repr

/-- The signature of a libfunc. -/
def CoreConcreteLibfunc.signature : CoreConcreteLibfunc → LibfuncSignature
  | .ConstAsBox _ _ sig => sig
  | .Other sig => sig

/-- `libfunc.param_signatures()`, projected to the parameter types (the only
part the driver reads). -/
def CoreConcreteLibfunc.param_signatures (l : CoreConcreteLibfunc) : List ConcreteTypeId :=
  l.signature.param_types

/-- `libfunc.output_types()`: per-branch output types. -/
def CoreConcreteLibfunc.output_types (l : CoreConcreteLibfunc) : List (List ConcreteTypeId) :=
  l.signature.branch_signatures.map (·.vars)

/-- `libfunc.fallthrough()`: the fallthrough branch index, if any. -/
def CoreConcreteLibfunc.fallthrough (l : CoreConcreteLibfunc) : Option Nat :=
  l.signature.fallthrough_idx

/-- `libfunc.branch_signatures()`. -/
def CoreConcreteLibfunc.branch_signatures (l : CoreConcreteLibfunc) : List BranchSignature :=
  l.signature.branch_signatures

/-- `BranchTarget`. -/
inductive BranchTarget where
  | Fallthrough
  | Statement (idx : Nat)
deriving DecidableEq, Repr

/-- `BranchInfo`: a branch of an invocation. -/
structure BranchInfo where
  target : BranchTarget
  results : List VarId
deriving DecidableEq, Repr

/-- `Invocation`. -/
structure Invocation where
  libfunc_id : ConcreteLibfuncId
  args : List VarId
  branches : List BranchInfo
deriving DecidableEq, Repr

/-- `Statement`. -/
inductive Statement where
  | Return (ref_ids : List VarId)
  | Invocation (invocation : Invocation)
deriving DecidableEq, Repr

/-- A Sierra function declaration; the driver forwards these to the
annotations module without inspecting them. -/
structure SierraFunction where
deriving DecidableEq, Repr

/-- `Program`: the statements, the function declarations and the libfunc
declarations (the driver reads `libfunc_declarations` only for their ids). -/
structure Program where
  statements : List Statement
  funcs : List SierraFunction
  libfunc_declarations : List ConcreteLibfuncId
deriving DecidableEq, Repr

/-- `StatementIdx::next`: the destination of a branch taken at `idx`
(fallthrough goes to the textually next statement). -/
def nextStatement (idx : Nat) : BranchTarget → Nat
  | .Fallthrough => idx + 1
  | .Statement i => i

/-- A CASM instruction, modelled by its word size `op_size` (the only
attribute the driver reads; relocation patches immediates, which do not
change sizes). -/
structure Instruction where
  op_size : Nat
deriving DecidableEq, Repr

/-- Modelled from the spec: the emitted return instruction is a single word
(`RetInstruction::op_size()`, external `cairo-lang-casm` crate). -/
def retInstruction : Instruction := ⟨1⟩

/-- Total word size of a list of instructions. -/
def opSizeSum (l : List Instruction) : Nat :=
  (l.map (·.op_size)).sum

/-- `ReferenceValue` (external `references` module), modelled by its type id;
its memory expression is only inspected by external collaborators. -/
structure ReferenceValue where
  ty : ConcreteTypeId
deriving DecidableEq, Repr

/-- `BranchChanges` (external `invocations` module); the driver only counts
and stores these. -/
structure BranchChanges where
deriving DecidableEq, Repr

/-- `RelocationEntry`: an instruction index plus an opaque relocation. -/
structure RelocationEntry where
  instruction_idx : Nat
  relocation : Unit
deriving DecidableEq, Repr

/-- `InvocationError` (external); the driver only distinguishes
`InvalidReferenceExpressionForArgument` when rewriting return-checker
errors. -/
inductive InvocationError where
  | InvalidReferenceExpressionForArgument
  | OtherError
deriving DecidableEq, Repr

/-- `CompilationError`.  Payloads of externally produced inner errors are
dropped (they are opaque to the driver). -/
inductive CompilationError where
  | FailedBuildingTypeInformation
  | ProgramRegistryError
  | AnnotationError
  | InvocationError (statement_idx : Nat) (error : InvocationError)
  | ReturnArgumentsNotOnStack (statement_idx : Nat)
  | LibfuncInvocationMismatch (statement_idx : Nat)
  | DanglingReferences (statement_idx : Nat) (var_id : VarId)
  | ExpectedBranchAlign (source_statement_idx : Nat) (destination_statement_idx : Nat)
  | ConstDataMismatch
  | UnsupportedConstType
  | ConstSegmentsOutOfOrder
  | CodeSizeLimitExceeded
deriving DecidableEq, Repr

/-- A failure of the modelled Rust code: either a returned
`CompilationError`, or a panic (`unwrap`, out-of-bounds index, `zip_eq`
mismatch, assertion, or — for the fuelled const-extraction loop —
divergence). -/
inductive CompileFailure where
  | err (e : CompilationError)
  | panic
deriving DecidableEq, Repr

/-- `SierraToCasmConfig`. -/
structure SierraToCasmConfig where
  gas_usage_check : Bool
  max_bytecode_size : Nat
deriving DecidableEq, Repr

/-- `Metadata` — opaque to the driver, forwarded to external collaborators. -/
structure Metadata where
deriving DecidableEq, Repr

/-- `TypeSizeMap`: type id → declared size (an `i16` in the source; indexing a
missing key panics, a negative size panics at `into_or_panic`). -/
def TypeSizeMap := ConcreteTypeId → Option Int

/-- The program registry, by the two lookups the driver performs. -/
structure ProgramRegistry where
  get_libfunc : ConcreteLibfuncId → Except Unit CoreConcreteLibfunc
  get_type : ConcreteTypeId → Except Unit CoreTypeConcrete

/-- `StatementAnnotations` at the granularity the driver reads it: the
per-statement reference environment (an ordered map variable → reference,
modelled as an association list whose head is the first key) and the
environment token. -/
structure StatementAnnotations (Env : Type) where
  refs : List (VarId × ReferenceValue)
  environment : Env

/-- `CompiledInvocation`: the output of an external libfunc emitter. -/
structure CompiledInvocation (Env : Type) where
  instructions : List Instruction
  relocations : List RelocationEntry
  results : List BranchChanges
  environment : Env

/-- The driver's external collaborators, bundled.  `A` is the state of the
`ProgramAnnotations` module, `Env` the environment-token type. -/
structure Externals (A Env : Type) where
  /-- `ProgramRegistry::new_with_ap_change` -/
  build_registry : Program → Metadata → Except Unit ProgramRegistry
  /-- `get_type_size_map` -/
  get_type_size_map : Program → ProgramRegistry → Option TypeSizeMap
  /-- `ProgramAnnotations::create` -/
  create_annotations : Nat → List SierraFunction → Metadata → Bool → TypeSizeMap → Except Unit A
  /-- `ProgramAnnotations::get_annotations_after_take_args`: returns the new
  module state, this statement's annotations and the taken references. -/
  get_annotations_after_take_args :
    A → Nat → List VarId → Except Unit (A × StatementAnnotations Env × List ReferenceValue)
  /-- `ReferenceValue::validate` — an internal assertion; `false` panics. -/
  validate_ref : ReferenceValue → TypeSizeMap → Bool
  /-- `ProgramAnnotations::validate_final_annotations` -/
  validate_final_annotations :
    A → Nat → StatementAnnotations Env → List SierraFunction → Metadata →
      List ReferenceValue → Except Unit Unit
  /-- `check_references_on_stack` -/
  check_references_on_stack : List ReferenceValue → Except InvocationError Unit
  /-- `check_types_match` -/
  check_types_match : List ReferenceValue → List ConcreteTypeId → Except Unit Unit
  /-- `compile_invocation`: the external per-libfunc emitter. -/
  compile_invocation :
    Metadata → TypeSizeMap → Invocation → CoreConcreteLibfunc → Nat →
      List ReferenceValue → Env → Except InvocationError (CompiledInvocation Env)
  /-- `ProgramAnnotations::propagate_annotations` -/
  propagate_annotations :
    A → Nat → Nat → StatementAnnotations Env → BranchInfo → BranchChanges → Bool →
      Except Unit A
  /-- `get_variant_selector` (external `invocations::enm` helper); `none`
  models its `Err`, which the driver unwraps (a panic). -/
  get_variant_selector : Nat → Nat → Option Int

/-- `StatementKindDebugInfo`. -/
inductive StatementKindDebugInfo where
  | Return (ref_values : List ReferenceValue)
  | Invoke (result_branch_changes : List BranchChanges) (ref_values : List ReferenceValue)
  | EndMarker
deriving DecidableEq, Repr

/-- `SierraStatementDebugInfo`. -/
structure SierraStatementDebugInfo where
  code_offset : Nat
  instruction_idx : Nat
  additional_kind_info : StatementKindDebugInfo
deriving DecidableEq, Repr

/-- `CairoProgramDebugInfo`. -/
structure CairoProgramDebugInfo where
  sierra_statement_info : List SierraStatementDebugInfo
deriving DecidableEq, Repr

/-- `ConstSegment`.  `const_offset` is an unordered map, modelled as an
association list. -/
structure ConstSegment where
  values : List Int
  const_offset : List (ConcreteTypeId × Nat)
  segment_offset : Nat
deriving DecidableEq, Repr

instance : Inhabited ConstSegment := ⟨⟨[], [], 0⟩⟩

/-- `ConstsInfo`.  `segments` is an `OrderedHashMap u32 → ConstSegment`,
modelled as an association list in insertion order. -/
structure ConstsInfo where
  segments : List (Nat × ConstSegment)
  total_segments_size : Nat
deriving DecidableEq, Repr

/-- `CairoProgram`. -/
structure CairoProgram where
  instructions : List Instruction
  debug_info : CairoProgramDebugInfo
  consts_info : ConstsInfo
deriving DecidableEq, Repr

/-- Insert-or-update on an association list, replacing the first occurrence of
the key and otherwise appending (the observable behaviour of map insertion on
maps whose keys are unique, as built here). -/
def setAssoc {β : Type} : List (Nat × β) → Nat → β → List (Nat × β)
  | [], k, v => [(k, v)]
  | p :: rest, k, v => if p.1 = k then (k, v) :: rest else p :: setAssoc rest k v

/-- Lookup on an association list with a default (the observable behaviour of
`entry(k).or_default()` before mutation). -/
def getAssocD {β : Type} (d : β) : List (Nat × β) → Nat → β
  | [], _ => d
  | p :: rest, k => if p.1 = k then p.2 else getAssocD d rest k

/-- Helper for the struct arm of `extract_const_value`: the member descriptors
must all be type references (`GenericArg::Type`); the first non-type
descriptor aborts the whole call with `ConstDataMismatch`, discarding partial
pushes. -/
def argsAsTypes : List GenericArg → Option (List ConcreteTypeId)
  | [] => some []
  | .TypeArg ty :: rest => (argsAsTypes rest).map (ty :: ·)
  | _ :: _ => none

/-- The work-stack loop of `extract_const_value`.  The stack is a list whose
head is the top (the end of the source's `Vec`); `values` is the accumulated
output.  `fuel` bounds the number of loop iterations: the source's `while` is
unbounded and diverges on cyclic const types, which fuel exhaustion models as
`panic`; every theorem supplies sufficient fuel. -/
def extractConstInner (sel : Nat → Nat → Option Int) (registry : ProgramRegistry)
    (type_sizes : TypeSizeMap) :
    Nat → List ConcreteTypeId → List Int → Except CompileFailure (List Int)
  | _, [], values => .ok values
  | 0, _ :: _, _ => .error .panic
  | fuel + 1, ty :: types_stack, values =>
    match registry.get_type ty with
    | .error _ => .error .panic  -- `registry.get_type(&ty).unwrap()`
    | .ok t =>
      match t with
      | .Const const_type =>
        match registry.get_type const_type.inner_ty with
        | .error _ => .error .panic  -- `registry.get_type(&const_type.inner_ty).unwrap()`
        | .ok inner_type =>
          match inner_type with
          | .Struct =>
            -- Add the struct members' types to the stack in reverse order.
            match argsAsTypes const_type.inner_data with
            | some member_tys =>
              extractConstInner sel registry type_sizes fuel (member_tys ++ types_stack) values
            | none => .error (.err .ConstDataMismatch)
          | .Enum variants =>
            -- The first argument is the variant selector, the second is the variant data.
            match const_type.inner_data with
            | [.ValueArg variant_index, .TypeArg vty] =>
              match variant_index.toNat' with
              | none => .error .panic  -- `variant_index.to_usize().unwrap()`
              | some vi =>
                match sel variants.length vi with
                | none => .error .panic  -- `get_variant_selector(..).unwrap()`
                | some selector =>
                  match type_sizes const_type.inner_ty with
                  | none => .error .panic  -- `type_sizes[&const_type.inner_ty]`
                  | some full_size_i =>
                    match full_size_i.toNat' with
                    | none => .error .panic  -- `into_or_panic` on a negative size
                    | some full_enum_size =>
                      match variants.get? vi with
                      | none => .error .panic  -- `enm.variants[variant_index]`
                      | some variant_ty =>
                        match type_sizes variant_ty with
                        | none => .error .panic
                        | some variant_size_i =>
                          match variant_size_i.toNat' with
                          | none => .error .panic
                          | some variant_size =>
                            if full_enum_size < variant_size + 1 then
                              .error .panic  -- usize underflow in the padding length
                            else
                              extractConstInner sel registry type_sizes fuel
                                (vty :: types_stack)
                                (values ++
                                  (selector ::
                                    List.replicate (full_enum_size - variant_size - 1) 0))
            | _ => .error (.err .ConstDataMismatch)
          | _ =>
            -- Primitive wrapped type: the descriptor must be a single value.
            match const_type.inner_data with
            | [.ValueArg value] =>
              extractConstInner sel registry type_sizes fuel types_stack (values ++ [value])
            | _ => .error (.err .ConstDataMismatch)
      | _ => .error (.err .UnsupportedConstType)

/-- `extract_const_value`: if `ty` is a const type, the vector of values to be
stored in the const segment. -/
def extract_const_value (sel : Nat → Nat → Option Int) (registry : ProgramRegistry)
    (type_sizes : TypeSizeMap) (fuel : Nat) (ty : ConcreteTypeId) :
    Except CompileFailure (List Int) :=
  extractConstInner sel registry type_sizes fuel [ty] []

/-- The `segments.keys().enumerate().any(|(i, id)| i != id)` check of
`ConstsInfo::new`, with `i` the running enumeration index. -/
def keysOutOfOrder : List Nat → Nat → Bool
  | [], _ => false
  | k :: rest, i => decide (i ≠ k) || keysOutOfOrder rest (i + 1)

/-- The body of `ConstsInfo::new`'s scan for one libfunc id, acting on the
accumulator `(segments_data_size, segments)`. -/
def constBuildStep (sel : Nat → Nat → Option Int) (registry : ProgramRegistry)
    (type_sizes : TypeSizeMap) (fuel : Nat) (const_segments_max_size : Nat)
    (acc : Nat × List (Nat × ConstSegment)) (id : ConcreteLibfuncId) :
    Except CompileFailure (Nat × List (Nat × ConstSegment)) :=
  match registry.get_libfunc id with
  | .error _ => .error .panic  -- `registry.get_libfunc(id).unwrap()`
  | .ok lf =>
    match lf with
    | .ConstAsBox segment_id const_ty _sig =>
      let segment := getAssocD default acc.2 segment_id
      match extract_const_value sel registry type_sizes fuel const_ty with
      | .error _ => .error .panic  -- `extract_const_value(..).unwrap()`
      | .ok const_data =>
        let segments_data_size := acc.1 + const_data.length
        let segment' : ConstSegment :=
          { values := segment.values ++ const_data
            const_offset := setAssoc segment.const_offset const_ty segment.values.length
            segment_offset := segment.segment_offset }
        let segments' := setAssoc acc.2 segment_id segment'
        if segments_data_size + segments'.length > const_segments_max_size then
          .error (.err .CodeSizeLimitExceeded)
        else
          .ok (segments_data_size, segments')
    | .Other _ => .ok acc

/-- The scan loop of `ConstsInfo::new` over the libfunc ids. -/
def constBuildLoop (sel : Nat → Nat → Option Int) (registry : ProgramRegistry)
    (type_sizes : TypeSizeMap) (fuel : Nat) (const_segments_max_size : Nat) :
    List ConcreteLibfuncId → Nat × List (Nat × ConstSegment) →
      Except CompileFailure (Nat × List (Nat × ConstSegment))
  | [], acc => .ok acc
  | id :: rest, acc =>
    match constBuildStep sel registry type_sizes fuel const_segments_max_size acc id with
    | .error f => .error f
    | .ok acc' => constBuildLoop sel registry type_sizes fuel const_segments_max_size rest acc'

/-- The final layout loop of `ConstsInfo::new`: assign each segment its
cumulative offset; each segment contributes `1 + len(values)` words (the 1 is
the `ret` terminator). -/
def layoutSegments : List (Nat × ConstSegment) → Nat → List (Nat × ConstSegment) × Nat
  | [], total => ([], total)
  | (k, seg) :: rest, total =>
    let seg' : ConstSegment := { seg with segment_offset := total }
    let (rest', total') := layoutSegments rest (total + (1 + seg.values.length))
    ((k, seg') :: rest', total')

/-- `ConstsInfo::new`. -/
def ConstsInfo.new (sel : Nat → Nat → Option Int) (registry : ProgramRegistry)
    (type_sizes : TypeSizeMap) (fuel : Nat) (libfunc_ids : List ConcreteLibfuncId)
    (const_segments_max_size : Nat) : Except CompileFailure ConstsInfo :=
  match constBuildLoop sel registry type_sizes fuel const_segments_max_size libfunc_ids
      (0, []) with
  | .error f => .error f
  | .ok (_, segments) =>
    -- Check that the segments were declared in order and without holes.
    if keysOutOfOrder (segments.map Prod.fst) 0 then
      .error (.err .ConstSegmentsOutOfOrder)
    else
      let (segments', total_segments_size) := layoutSegments segments 0
      .ok { segments := segments', total_segments_size := total_segments_size }

/-- `check_basic_structure`: the invocation must match the libfunc's
signature.  The source's single short-circuiting `||` chain is rendered as
sequential tests; indexing `invocation.branches[expected_fallthrough]` can
panic. -/
def check_basic_structure (statement_idx : Nat) (invocation : Invocation)
    (libfunc : CoreConcreteLibfunc) : Except CompileFailure Unit :=
  if invocation.args.length ≠ libfunc.param_signatures.length then
    .error (.err (.LibfuncInvocationMismatch statement_idx))
  else if invocation.branches.map (·.results.length) ≠ libfunc.output_types.map List.length then
    .error (.err (.LibfuncInvocationMismatch statement_idx))
  else
    match libfunc.fallthrough with
    | some expected_fallthrough =>
      match invocation.branches.get? expected_fallthrough with
      | none => .error .panic  -- `invocation.branches[expected_fallthrough]`
      | some branch =>
        if branch.target ≠ BranchTarget.Fallthrough then
          .error (.err (.LibfuncInvocationMismatch statement_idx))
        else
          .ok ()
    | none => .ok ()

/-- `is_branch_align`: `statement` is an invocation of a libfunc with exactly
one branch signature whose AP-change is `BranchAlign`. -/
def is_branch_align (registry : ProgramRegistry) : Statement → Except CompileFailure Bool
  | .Invocation invocation =>
    match registry.get_libfunc invocation.libfunc_id with
    | .error _ => .error (.err .ProgramRegistryError)
    | .ok libfunc =>
      match libfunc.branch_signatures with
      | [branch_signature] =>
        if branch_signature.ap_change = SierraApChange.BranchAlign then
          .ok true
        else
          .ok false
      | _ => .ok false
  | .Return _ => .ok false

/-- Modelled from the spec: `relocate_instructions` (the `relocations` module,
not under `src/`) patches single immediate slots of already-emitted
instructions in place and never changes the instruction count or any
instruction's size; as instructions are modelled by their sizes alone, it is
the identity on the instruction list. -/
def relocate_instructions (_relocations : List RelocationEntry)
    (_statement_offsets : List Nat) (_consts_info : ConstsInfo)
    (instructions : List Instruction) : List Instruction :=
  instructions

/-- The driver's mutable state across the main statement loop. -/
structure CState (A : Type) where
  instructions : List Instruction
  relocations : List RelocationEntry
  sierra_statement_info : List SierraStatementDebugInfo
  program_offset : Nat
  annot : A

/-- The per-branch loop at the end of the invocation arm of `compile`
(`for (branch_info, branch_changes) in zip_eq(..)`): the branch-align check
for branching libfuncs, then annotation propagation.  Walking both lists
together models `zip_eq`, which panics when the lengths differ. -/
def branchLoop {A Env : Type} (E : Externals A Env) (registry : ProgramRegistry)
    (program : Program) (statement_idx : Nat)
    (updated_annotations : StatementAnnotations Env) (branching_libfunc : Bool) :
    List BranchInfo → List BranchChanges → A → Except CompileFailure A
  | [], [], annot => .ok annot
  | [], _ :: _, _ => .error .panic  -- `zip_eq` length mismatch
  | _ :: _, [], _ => .error .panic  -- `zip_eq` length mismatch
  | branch_info :: branches, branch_changes :: changes, annot =>
    let destination_statement_idx := nextStatement statement_idx branch_info.target
    if branching_libfunc then
      match program.statements.get? destination_statement_idx with
      | none => .error .panic  -- `program.statements[destination_statement_idx.0]`
      | some destination =>
        match is_branch_align registry destination with
        | .error f => .error f
        | .ok true =>
          match E.propagate_annotations annot statement_idx destination_statement_idx
              updated_annotations branch_info branch_changes branching_libfunc with
          | .error _ => .error (.err .AnnotationError)
          | .ok annot' =>
            branchLoop E registry program statement_idx updated_annotations
              branching_libfunc branches changes annot'
        | .ok false =>
          .error (.err (.ExpectedBranchAlign statement_idx destination_statement_idx))
    else
      match E.propagate_annotations annot statement_idx destination_statement_idx
          updated_annotations branch_info branch_changes branching_libfunc with
      | .error _ => .error (.err .AnnotationError)
      | .ok annot' =>
        branchLoop E registry program statement_idx updated_annotations
          branching_libfunc branches changes annot'

/-- One iteration of `compile`'s main loop: process the statement at
`statement_idx`. -/
def compileStep {A Env : Type} (E : Externals A Env) (registry : ProgramRegistry)
    (type_sizes : TypeSizeMap) (program : Program) (metadata : Metadata)
    (config : SierraToCasmConfig) (statement_idx : Nat) (statement : Statement)
    (st : CState A) : Except CompileFailure (CState A) :=
  if st.program_offset > config.max_bytecode_size then
    .error (.err .CodeSizeLimitExceeded)
  else
    match statement with
    | .Return ref_ids =>
      match E.get_annotations_after_take_args st.annot statement_idx ref_ids with
      | .error _ => .error (.err .AnnotationError)
      | .ok (annot', annotations, return_refs) =>
        if return_refs.all (fun r => E.validate_ref r type_sizes) then
          match annotations.refs with
          | (var_id, _) :: _ =>
            .error (.err (.DanglingReferences statement_idx var_id))
          | [] =>
            match E.validate_final_annotations annot' statement_idx annotations
                program.funcs metadata return_refs with
            | .error _ => .error (.err .AnnotationError)
            | .ok () =>
              match E.check_references_on_stack return_refs with
              | .error .InvalidReferenceExpressionForArgument =>
                .error (.err (.ReturnArgumentsNotOnStack statement_idx))
              | .error e => .error (.err (.InvocationError statement_idx e))
              | .ok () =>
                .ok { instructions := st.instructions ++ [retInstruction]
                      relocations := st.relocations
                      sierra_statement_info := st.sierra_statement_info ++
                        [{ code_offset := st.program_offset + retInstruction.op_size
                           instruction_idx := st.instructions.length + 1
                           additional_kind_info := .Return return_refs }]
                      program_offset := st.program_offset + retInstruction.op_size
                      annot := annot' }
        else .error .panic  -- `r.validate(&type_sizes)` assertion failure
    | .Invocation invocation =>
      match E.get_annotations_after_take_args st.annot statement_idx invocation.args with
      | .error _ => .error (.err .AnnotationError)
      | .ok (annot', annotations, invoke_refs) =>
        match registry.get_libfunc invocation.libfunc_id with
        | .error _ => .error (.err .ProgramRegistryError)
        | .ok libfunc =>
          match check_basic_structure statement_idx invocation libfunc with
          | .error f => .error f
          | .ok () =>
            let param_types := libfunc.param_signatures
            match E.check_types_match invoke_refs param_types with
            | .error _ => .error (.err .AnnotationError)
            | .ok () =>
              if invoke_refs.all (fun r => E.validate_ref r type_sizes) then
                match E.compile_invocation metadata type_sizes invocation libfunc
                    statement_idx invoke_refs annotations.environment with
                | .error error => .error (.err (.InvocationError statement_idx error))
                | .ok compiled_invocation =>
                  let new_offset :=
                    st.program_offset + opSizeSum compiled_invocation.instructions
                  let new_relocations := st.relocations ++
                    compiled_invocation.relocations.map (fun entry =>
                      { instruction_idx := st.instructions.length + entry.instruction_idx
                        relocation := entry.relocation })
                  let new_instructions :=
                    st.instructions ++ compiled_invocation.instructions
                  let updated_annotations : StatementAnnotations Env :=
                    { annotations with environment := compiled_invocation.environment }
                  let new_debug := st.sierra_statement_info ++
                    [{ code_offset := new_offset
                       instruction_idx := new_instructions.length
                       additional_kind_info :=
                         .Invoke compiled_invocation.results invoke_refs }]
                  let branching_libfunc := compiled_invocation.results.length > 1
                  match branchLoop E registry program statement_idx updated_annotations
                      branching_libfunc invocation.branches compiled_invocation.results
                      annot' with
                  | .error f => .error f
                  | .ok annot'' =>
                    .ok { instructions := new_instructions
                          relocations := new_relocations
                          sierra_statement_info := new_debug
                          program_offset := new_offset
                          annot := annot'' }
              else .error .panic  -- `r.validate(&type_sizes)` assertion failure

/-- `compile`'s main loop over the statements, starting at `statement_idx`. -/
def compileLoop {A Env : Type} (E : Externals A Env) (registry : ProgramRegistry)
    (type_sizes : TypeSizeMap) (program : Program) (metadata : Metadata)
    (config : SierraToCasmConfig) :
    List Statement → Nat → CState A → Except CompileFailure (CState A)
  | [], _, st => .ok st
  | statement :: rest, statement_idx, st =>
    match compileStep E registry type_sizes program metadata config statement_idx
        statement st with
    | .error f => .error f
    | .ok st' =>
      compileLoop E registry type_sizes program metadata config rest
        (statement_idx + 1) st'

/-- `compile`: the driver entry point.  `E` bundles the external
collaborators; `fuel` bounds the const-extraction work loop (see
`extractConstInner`). -/
def compile {A Env : Type} (E : Externals A Env) (fuel : Nat) (program : Program)
    (metadata : Metadata) (config : SierraToCasmConfig) :
    Except CompileFailure CairoProgram :=
  match E.build_registry program metadata with
  | .error _ => .error (.err .ProgramRegistryError)
  | .ok registry =>
    match E.get_type_size_map program registry with
    | none => .error (.err .FailedBuildingTypeInformation)
    | some type_sizes =>
      match E.create_annotations program.statements.length program.funcs metadata
          config.gas_usage_check type_sizes with
      | .error _ => .error (.err .AnnotationError)
      | .ok annot0 =>
        match compileLoop E registry type_sizes program metadata config
            program.statements 0
            { instructions := [], relocations := [], sierra_statement_info := []
              program_offset := 0, annot := annot0 } with
        | .error f => .error f
        | .ok stF =>
          -- Push the final offset and index at the end of the vectors.
          let sierra_statement_info := stF.sierra_statement_info ++
            [{ code_offset := stF.program_offset
               instruction_idx := stF.instructions.length
               additional_kind_info := .EndMarker }]
          let statement_offsets := sierra_statement_info.map (·.code_offset)
          -- `config.max_bytecode_size.checked_sub(program_offset)`
          if stF.program_offset > config.max_bytecode_size then
            .error (.err .CodeSizeLimitExceeded)
          else
            match ConstsInfo.new E.get_variant_selector registry type_sizes fuel
                program.libfunc_declarations
                (config.max_bytecode_size - stF.program_offset) with
            | .error f => .error f
            | .ok consts_info =>
              .ok { instructions :=
                      relocate_instructions stF.relocations statement_offsets
                        consts_info stF.instructions
                    debug_info := { sierra_statement_info := sierra_statement_info }
                    consts_info := consts_info }

/-- The prelude of `compile` followed by its main loop run over only the first
`j` statements: the state of the driver after `j` statements have been
processed.  `(compilePrefix .. j).program_offset` is the code offset at which
statement `j`'s code will begin — equivalently, at which statement `j − 1`'s
code ended. -/
def compilePrefix {A Env : Type} (E : Externals A Env) (program : Program)
    (metadata : Metadata) (config : SierraToCasmConfig) (j : Nat) :
    Except CompileFailure (CState A) :=
  match E.build_registry program metadata with
  | .error _ => .error (.err .ProgramRegistryError)
  | .ok registry =>
    match E.get_type_size_map program registry with
    | none => .error (.err .FailedBuildingTypeInformation)
    | some type_sizes =>
      match E.create_annotations program.statements.length program.funcs metadata
          config.gas_usage_check type_sizes with
      | .error _ => .error (.err .AnnotationError)
      | .ok annot0 =>
        compileLoop E registry type_sizes program metadata config
          (program.statements.take j) 0
          { instructions := [], relocations := [], sierra_statement_info := []
            program_offset := 0, annot := annot0 }

/-! Concrete instantiations of the external collaborators, used to evaluate
the driver on closed inputs. -/

/-- A registry with no libfuncs and no types. -/
def emptyRegistry : ProgramRegistry where
  get_libfunc := fun _ => .error ()
  get_type := fun _ => .error ()

/-- Trivially succeeding externals: empty environments, no libfunc emission
(any invocation is rejected by the emitter). -/
def trivialExt : Externals Unit Unit where
  build_registry := fun _ _ => .ok emptyRegistry
  get_type_size_map := fun _ _ => some (fun _ => none)
  create_annotations := fun _ _ _ _ _ => .ok ()
  get_annotations_after_take_args := fun _ _ _ => .ok ((), ⟨[], ()⟩, [])
  validate_ref := fun _ _ => true
  validate_final_annotations := fun _ _ _ _ _ _ => .ok ()
  check_references_on_stack := fun _ => .ok ()
  check_types_match := fun _ _ => .ok ()
  compile_invocation := fun _ _ _ _ _ _ _ => .error .OtherError
  propagate_annotations := fun _ _ _ _ _ _ _ => .ok ()
  get_variant_selector := fun _ _ => none

/-- A one-statement program: a single empty `Return`. -/
def progRet1 : Program := ⟨[.Return []], [], []⟩

/-- A configuration with a 10-word bytecode budget and no gas check. -/
def cfg10 : SierraToCasmConfig := ⟨false, 10⟩

/-- Registry for the const-layout scenario: three `AsBox` libfuncs, two
targeting segment 0 (values 7 and 11) and one targeting segment 1
(value 13). -/
def constsReg : ProgramRegistry where
  get_libfunc := fun id =>
    if id = 10 then .ok (.ConstAsBox 0 100 ⟨[], [], none⟩)
    else if id = 11 then .ok (.ConstAsBox 0 101 ⟨[], [], none⟩)
    else if id = 12 then .ok (.ConstAsBox 1 102 ⟨[], [], none⟩)
    else .error ()
  get_type := fun ty =>
    if ty = 100 then .ok (.Const ⟨200, [.ValueArg 7]⟩)
    else if ty = 101 then .ok (.Const ⟨200, [.ValueArg 11]⟩)
    else if ty = 102 then .ok (.Const ⟨200, [.ValueArg 13]⟩)
    else if ty = 200 then .ok .OtherType
    else .error ()

/-- Registry for the enum-const scenario: type 0 is a const type wrapping the
3-variant enum type 1 with chosen variant index 1 and payload type 2 (a const
type wrapping a primitive with value 7). -/
def enumReg : ProgramRegistry where
  get_libfunc := fun _ => .error ()
  get_type := fun ty =>
    if ty = 0 then .ok (.Const ⟨1, [.ValueArg 1, .TypeArg 2]⟩)
    else if ty = 1 then .ok (.Enum [3, 4, 5])
    else if ty = 2 then .ok (.Const ⟨6, [.ValueArg 7]⟩)
    else if ty = 6 then .ok .OtherType
    else .error ()

/-- Type sizes for the enum-const scenario: the enum type 1 has full size 4,
its variant type 4 has payload size 1. -/
def enumTs : TypeSizeMap := fun ty =>
  if ty = 1 then some 4 else if ty = 4 then some 1 else none

/-- Selector helper for the enum-const scenario: `selector(3, 1) = 10`. -/
def enumSel : Nat → Nat → Option Int := fun n i =>
  if n = 3 ∧ i = 1 then some 10 else none

/-- Registry for the branch-align scenarios: libfunc 1 is a branch-align
libfunc (single branch signature with AP-change `BranchAlign`), libfunc 2 is a
plain single-branch libfunc, libfunc 3 is a two-branch libfunc. -/
def alignReg : ProgramRegistry where
  get_libfunc := fun id =>
    if id = 1 then .ok (.Other ⟨[], [⟨[], .BranchAlign⟩], none⟩)
    else if id = 2 then .ok (.Other ⟨[], [⟨[], .OtherApChange⟩], none⟩)
    else if id = 3 then
      .ok (.Other ⟨[], [⟨[], .OtherApChange⟩, ⟨[], .OtherApChange⟩], some 0⟩)
    else .error ()
  get_type := fun _ => .error ()

/-- Claim C7: `check_basic_structure` returns the `LibfuncInvocationMismatch`
error for the statement if and only if at least one of the following fails:
the invocation's argument count equals the libfunc's parameter count; for
every branch, the invocation's result count equals the libfunc's output-type
count for that branch; and, when the libfunc declares a fallthrough branch,
the invocation's branch at that index targets fallthrough.  The hypothesis
`hfall` is the external contract of `ConcreteLibfunc::fallthrough`: it is an
index into the libfunc's branch signatures. -/
theorem c7_check_basic_structure_iff (statement_idx : Nat) (invocation : Invocation)
    (libfunc : CoreConcreteLibfunc)
    (hfall : ∀ i, libfunc.fallthrough = some i → i < libfunc.branch_signatures.length) :
    check_basic_structure statement_idx invocation libfunc =
        .error (.err (.LibfuncInvocationMismatch statement_idx)) ↔
      ¬ (invocation.args.length = libfunc.param_signatures.length ∧
         invocation.branches.map (fun b => b.results.length) =
           libfunc.output_types.map List.length ∧
         (∀ i, libfunc.fallthrough = some i →
            ∃ b, invocation.branches.get? i = some b ∧
              b.target = BranchTarget.Fallthrough)) := by
  unfold check_basic_structure
  by_cases h1 : invocation.args.length = libfunc.param_signatures.length
  · by_cases h2 : invocation.branches.map (fun b => b.results.length) =
        libfunc.output_types.map List.length
    · have hlen : invocation.branches.length = libfunc.branch_signatures.length := by
        have := congrArg List.length h2
        simpa [CoreConcreteLibfunc.output_types, CoreConcreteLibfunc.branch_signatures] using this
      rw [if_neg (not_ne_iff.mpr h1), if_neg (not_ne_iff.mpr h2)]
      cases hf : libfunc.fallthrough with
      | none =>
        constructor
        · intro h; simp at h
        · intro hC
          exact absurd ⟨h1, h2, fun i' hi' => by cases hi'⟩ hC
      | some i =>
        have hi : i < invocation.branches.length := hlen ▸ hfall i hf
        have hb : invocation.branches[i]? = some invocation.branches[i] :=
          List.getElem?_eq_getElem hi
        simp only [List.get?_eq_getElem?, hb]
        by_cases ht : invocation.branches[i].target = BranchTarget.Fallthrough
        · rw [if_neg (not_ne_iff.mpr ht)]
          constructor
          · intro h; simp at h
          · intro hC
            refine absurd ⟨h1, h2, fun i' hi' => ?_⟩ hC
            injection hi' with e
            subst e
            exact ⟨_, hb, ht⟩
        · rw [if_pos ht]
          constructor
          · intro _ hABC
            obtain ⟨b, hbx, htx⟩ := hABC.2.2 i rfl
            rw [hb] at hbx
            injection hbx with e
            subst e
            exact ht htx
          · intro _; rfl
    · rw [if_neg (not_ne_iff.mpr h1), if_pos h2]
      constructor
      · intro _ hABC; exact h2 hABC.2.1
      · intro _; rfl
  · rw [if_pos h1]
    constructor
    · intro _ hABC; exact h1 hABC.1
    · intro _; rfl

/-- Witness for C7: a one-argument invocation of a parameterless single-branch
libfunc is rejected with `LibfuncInvocationMismatch`. -/
theorem c7_check_basic_structure_iff_witness :
    check_basic_structure 0 ⟨2, [0], [⟨.Fallthrough, []⟩]⟩
        (.Other ⟨[], [⟨[], .OtherApChange⟩], none⟩) =
      .error (.err (.LibfuncInvocationMismatch 0)) :=
  (c7_check_basic_structure_iff 0 ⟨2, [0], [⟨.Fallthrough, []⟩]⟩
      (.Other ⟨[], [⟨[], .OtherApChange⟩], none⟩) (fun _ h => nomatch h)).mpr
    (fun h => absurd h.1 (by decide))

/-- Registry for the unsupported-const scenario: libfunc 1 is an `AsBox`
whose const type 0 resolves to a non-const type. -/
def badConstReg : ProgramRegistry where
  get_libfunc := fun id => if id = 1 then .ok (.ConstAsBox 0 0 ⟨[], [], none⟩) else .error ()
  get_type := fun ty => if ty = 0 then .ok .OtherType else .error ()

/-- Counterexample for C2: with an `AsBox` libfunc whose const type is not a
const-wrapping type, `ConstsInfo::new` panics (it `unwrap`s the
`extract_const_value` error) — it does not return the `UnsupportedConstType`
compilation error. -/
theorem c2_counterexample_new_panics :
    ConstsInfo.new (fun _ _ => none) badConstReg (fun _ => none) 1 [1] 100 =
        .error .panic ∧
      (CompileFailure.panic ≠ CompileFailure.err .UnsupportedConstType) :=
  ⟨rfl, by decide⟩

/-- Claim C2, amended: for a const-as-box libfunc whose const type `ty` is not
a const-wrapping type, `extract_const_value` fails with the
`UnsupportedConstType` compilation error, and `ConstsInfo::new` (and hence
`compile`) panics on its `unwrap` of that error instead of returning it. -/
theorem c2_amended_unsupported_const_panics (sel : Nat → Nat → Option Int)
    (registry : ProgramRegistry) (type_sizes : TypeSizeMap) (fuel : Nat)
    (ty : ConcreteTypeId) (t : CoreTypeConcrete) (id : ConcreteLibfuncId)
    (segment_id : Nat) (sig : LibfuncSignature) (max_size : Nat)
    (hty : registry.get_type ty = .ok t)
    (hnc : ∀ c, t ≠ .Const c)
    (hlf : registry.get_libfunc id = .ok (.ConstAsBox segment_id ty sig)) :
    extract_const_value sel registry type_sizes (fuel + 1) ty =
        .error (.err .UnsupportedConstType) ∧
      ConstsInfo.new sel registry type_sizes (fuel + 1) [id] max_size = .error .panic := by
  have hextract : extract_const_value sel registry type_sizes (fuel + 1) ty =
      .error (.err .UnsupportedConstType) := by
    unfold extract_const_value extractConstInner
    rw [hty]
    cases t with
    | Const c => exact absurd rfl (hnc c)
    | Struct => rfl
    | Enum v => rfl
    | OtherType => rfl
  refine ⟨hextract, ?_⟩
  unfold ConstsInfo.new constBuildLoop constBuildStep
  rw [hlf]
  simp only [hextract]

/-- Witness for the amended C2, at the concrete registry `badConstReg`. -/
theorem c2_amended_unsupported_const_panics_witness :
    extract_const_value (fun _ _ => none) badConstReg (fun _ => none) 1 0 =
        .error (.err .UnsupportedConstType) ∧
      ConstsInfo.new (fun _ _ => none) badConstReg (fun _ => none) 1 [1] 100 =
        .error .panic :=
  c2_amended_unsupported_const_panics (fun _ _ => none) badConstReg (fun _ => none) 0 0
    .OtherType 1 0 ⟨[], [], none⟩ 100 rfl (fun _ h => nomatch h) rfl

theorem except_map_acc (r : Except CompileFailure (List Int)) (acc d : List Int) :
    Except.map (fun x => (acc ++ d) ++ x) r =
      Except.map (fun x => acc ++ x) (Except.map (fun x => ([] ++ d) ++ x) r) := by
  cases r <;> simp [Except.map, List.append_assoc]

theorem extractConstInner_acc (sel : Nat → Nat → Option Int) (registry : ProgramRegistry)
    (type_sizes : TypeSizeMap) :
    ∀ (fuel : Nat) (stack : List ConcreteTypeId) (acc : List Int),
      extractConstInner sel registry type_sizes fuel stack acc =
        (extractConstInner sel registry type_sizes fuel stack []).map (acc ++ ·) := by
  intro fuel
  induction fuel with
  | zero =>
    intro stack acc
    cases stack <;> simp [extractConstInner, Except.map]
  | succ n ih =>
    intro stack acc
    cases stack with
    | nil => simp [extractConstInner, Except.map]
    | cons ty rest =>
      simp only [extractConstInner]
      cases hg : registry.get_type ty <;> try simp only [hg]
      case error e => simp [Except.map]
      case ok t =>
      cases t
      case Struct => simp [Except.map]
      case Enum v => simp [Except.map]
      case OtherType => simp [Except.map]
      case Const c =>
      cases hg2 : registry.get_type c.inner_ty <;> try simp only [hg2]
      case error e => simp [Except.map]
      case ok it =>
      cases it
      case Struct =>
        cases ha : argsAsTypes c.inner_data <;> try simp only [ha]
        case none => simp [Except.map]
        case some tys => conv_lhs => rw [ih]
      case Enum variants =>
        cases hd : c.inner_data <;> try simp only [hd]
        case nil => simp [Except.map]
        case cons a l =>
        cases a
        case TypeArg t1 => simp [Except.map]
        case OtherArg => simp [Except.map]
        case ValueArg v =>
        cases l
        case nil => simp [Except.map]
        case cons b m =>
        cases b
        case ValueArg v2 => simp [Except.map]
        case OtherArg => simp [Except.map]
        case TypeArg vty =>
        cases m
        case cons cc mm => simp [Except.map]
        case nil =>
        cases hv : v.toNat' <;> try simp only [hv]
        case none => simp [Except.map]
        case some vi =>
        cases hs : sel variants.length vi <;> try simp only [hs]
        case none => simp [Except.map]
        case some selector =>
        cases hts : type_sizes c.inner_ty <;> try simp only [hts]
        case none => simp [Except.map]
        case some fsi =>
        cases hfn : fsi.toNat' <;> try simp only [hfn]
        case none => simp [Except.map]
        case some fullN =>
        cases hvt : variants.get? vi <;> try simp only [hvt]
        case none => simp [Except.map]
        case some vt =>
        cases hvs : type_sizes vt <;> try simp only [hvs]
        case none => simp [Except.map]
        case some vsi =>
        cases hvn : vsi.toNat' <;> try simp only [hvn]
        case none => simp [Except.map]
        case some varN =>
        by_cases hlt : fullN < varN + 1
        · rw [if_pos hlt, if_pos hlt]; simp [Except.map]
        · rw [if_neg hlt, if_neg hlt]
          conv_lhs => rw [ih]
          conv_rhs => rw [ih]
          exact except_map_acc _ _ _
      case Const c2 =>
        cases hd : c.inner_data <;> try simp only [hd]
        case nil => simp [Except.map]
        case cons a l =>
        cases a
        case TypeArg t1 => simp [Except.map]
        case OtherArg => simp [Except.map]
        case ValueArg v =>
        cases l
        case cons b m => simp [Except.map]
        case nil =>
          show extractConstInner sel registry type_sizes n rest (acc ++ [v]) =
            Except.map (fun x => acc ++ x)
              (extractConstInner sel registry type_sizes n rest ([] ++ [v]))
          conv_lhs => rw [ih]
          conv_rhs => rw [ih]
          exact except_map_acc _ _ _
      case OtherType =>
        cases hd : c.inner_data <;> try simp only [hd]
        case nil => simp [Except.map]
        case cons a l =>
        cases a
        case TypeArg t1 => simp [Except.map]
        case OtherArg => simp [Except.map]
        case ValueArg v =>
        cases l
        case cons b m => simp [Except.map]
        case nil =>
          show extractConstInner sel registry type_sizes n rest (acc ++ [v]) =
            Except.map (fun x => acc ++ x)
              (extractConstInner sel registry type_sizes n rest ([] ++ [v]))
          conv_lhs => rw [ih]
          conv_rhs => rw [ih]
          exact except_map_acc _ _ _

/-- Claim C3: for a const type wrapping an enum whose descriptor is exactly
`[variant_index, payload_type]`, `extract_const_value` emits, in order: one
variant-selector word computed (by the external selector helper) from the
total variant count and the chosen index, then exactly
`size(enum) − size(variant_payload) − 1` zero words of padding, and then the
words of the payload type. -/
theorem c3_enum_const_emission (sel : Nat → Nat → Option Int) (registry : ProgramRegistry)
    (type_sizes : TypeSizeMap) (fuel : Nat) (ty ity pty : ConcreteTypeId)
    (variants : List ConcreteTypeId) (v : Int) (vi : Nat) (selector : Int)
    (fsi : Int) (fullN : Nat) (vty : ConcreteTypeId) (vsi : Int) (varN : Nat)
    (hty : registry.get_type ty = .ok (.Const ⟨ity, [.ValueArg v, .TypeArg pty]⟩))
    (hity : registry.get_type ity = .ok (.Enum variants))
    (hv : v.toNat' = some vi)
    (hsel : sel variants.length vi = some selector)
    (hfull : type_sizes ity = some fsi) (hfullN : fsi.toNat' = some fullN)
    (hvty : variants.get? vi = some vty)
    (hvsize : type_sizes vty = some vsi) (hvarN : vsi.toNat' = some varN)
    (hfits : ¬ fullN < varN + 1) :
    extract_const_value sel registry type_sizes (fuel + 1) ty =
      (extract_const_value sel registry type_sizes fuel pty).map
        (fun payload => selector :: (List.replicate (fullN - varN - 1) 0 ++ payload)) := by
  unfold extract_const_value
  simp only [extractConstInner, hty, hity, hv, hsel, hfull, hfullN, hvty, hvsize, hvarN]
  rw [if_neg hfits]
  rw [extractConstInner_acc]
  cases extractConstInner sel registry type_sizes fuel [pty] [] <;> simp [Except.map]

/-- Witness for C3, the spec's concrete enum scenario: a 3-variant enum of
full size 4, chosen variant 1 of payload size 1 and payload word 7; the
emitted words are `[selector(3,1), 0, 0, 7]` with `selector(3,1) = 10` and
padding length `4 − 1 − 1 = 2`. -/
theorem c3_enum_const_emission_witness :
    extract_const_value enumSel enumReg enumTs 2 0 = .ok [10, 0, 0, 7] := by
  have h := c3_enum_const_emission enumSel enumReg enumTs 1 0 1 2 [3, 4, 5] 1 1 10 4 4 4 1 1
    rfl rfl rfl rfl rfl rfl rfl rfl rfl (by decide)
  rw [h]; rfl

/-- The contribution of a segment list to the final layout: each segment
occupies `1 + len(values)` words (terminator plus values). -/
def segSizeSum (l : List (Nat × ConstSegment)) : Nat :=
  (l.map (fun p => 1 + p.2.values.length)).sum

theorem layoutSegments_total : ∀ (l : List (Nat × ConstSegment)) (t : Nat),
    (layoutSegments l t).2 = t + segSizeSum l := by
  intro l
  induction l with
  | nil => intro t; simp [layoutSegments, segSizeSum]
  | cons p rest ih =>
    intro t
    obtain ⟨k, s⟩ := p
    simp only [layoutSegments]
    cases hL : layoutSegments rest (t + (1 + s.values.length)) with
    | mk rest' total' =>
      have := ih (t + (1 + s.values.length))
      rw [hL] at this
      simp only [segSizeSum, List.map_cons, List.sum_cons] at this ⊢
      omega

theorem layoutSegments_fst : ∀ (l : List (Nat × ConstSegment)) (t : Nat),
    (layoutSegments l t).1.map Prod.fst = l.map Prod.fst := by
  intro l
  induction l with
  | nil => intro t; simp [layoutSegments]
  | cons p rest ih =>
    intro t
    obtain ⟨k, s⟩ := p
    simp only [layoutSegments]
    cases hL : layoutSegments rest (t + (1 + s.values.length)) with
    | mk rest' total' =>
      have := ih (t + (1 + s.values.length))
      rw [hL] at this
      simpa using this

theorem layoutSegments_length : ∀ (l : List (Nat × ConstSegment)) (t : Nat),
    (layoutSegments l t).1.length = l.length := by
  intro l
  have := layoutSegments_fst l
  intro t
  have h := congrArg List.length (this t)
  simpa using h

theorem layoutSegments_offset : ∀ (l : List (Nat × ConstSegment)) (t : Nat) (k : Nat),
    k < l.length → ∃ p, (layoutSegments l t).1.get? k = some p ∧
      p.2.segment_offset = t + segSizeSum (l.take k) := by
  intro l
  induction l with
  | nil => intro t k hk; simp at hk
  | cons q rest ih =>
    intro t k hk
    obtain ⟨key, s⟩ := q
    simp only [layoutSegments]
    cases hL : layoutSegments rest (t + (1 + s.values.length)) with
    | mk rest' total' =>
      cases k with
      | zero => exact ⟨(key, { s with segment_offset := t }), rfl, by simp [segSizeSum]⟩
      | succ k' =>
        have hk' : k' < rest.length := by simpa using hk
        obtain ⟨p, hp1, hp2⟩ := ih (t + (1 + s.values.length)) k' hk'
        rw [hL] at hp1
        refine ⟨p, by simpa using hp1, ?_⟩
        rw [hp2]
        simp [segSizeSum, List.take_succ_cons]
        omega

theorem layoutSegments_segSizeSum_take : ∀ (l : List (Nat × ConstSegment)) (t : Nat) (k : Nat),
    segSizeSum ((layoutSegments l t).1.take k) = segSizeSum (l.take k) := by
  intro l
  induction l with
  | nil => intro t k; simp [layoutSegments]
  | cons q rest ih =>
    intro t k
    obtain ⟨key, s⟩ := q
    simp only [layoutSegments]
    cases hL : layoutSegments rest (t + (1 + s.values.length)) with
    | mk rest' total' =>
      cases k with
      | zero => simp
      | succ k' =>
        have := ih (t + (1 + s.values.length)) k'
        rw [hL] at this
        simp only [List.take_succ_cons, segSizeSum, List.map_cons, List.sum_cons] at this ⊢
        omega

theorem keysOutOfOrder_false : ∀ (keys : List Nat) (i : Nat),
    keysOutOfOrder keys i = false → keys = List.range' i keys.length := by
  intro keys
  induction keys with
  | nil => intro i _; simp
  | cons k rest ih =>
    intro i h
    simp only [keysOutOfOrder, Bool.or_eq_false_iff, decide_eq_false_iff_not, not_not] at h
    obtain ⟨hik, hrest⟩ := h
    have := ih (i + 1) hrest
    subst hik
    rw [show (i :: rest).length = rest.length + 1 from rfl, List.range'_succ]
    exact congrArg (i :: ·) this

/-- Claim C6: for every successful run of `ConstsInfo::new`, the segment keys
enumerate in order to `0, 1, …, n−1`, each segment's `segment_offset` equals
the cumulative `1 + len(values)` of all previously laid-out segments, and
`total_segments_size` equals the sum of `1 + len(values)` over all
segments. -/
theorem c6_const_layout (sel : Nat → Nat → Option Int) (registry : ProgramRegistry)
    (type_sizes : TypeSizeMap) (fuel : Nat) (ids : List ConcreteLibfuncId)
    (max_size : Nat) (info : ConstsInfo)
    (h : ConstsInfo.new sel registry type_sizes fuel ids max_size = .ok info) :
    info.segments.map Prod.fst = List.range info.segments.length ∧
    (∀ k, k < info.segments.length → ∃ p, info.segments.get? k = some p ∧
       p.2.segment_offset = segSizeSum (info.segments.take k)) ∧
    info.total_segments_size = segSizeSum info.segments := by
  unfold ConstsInfo.new at h
  cases hB : constBuildLoop sel registry type_sizes fuel max_size ids (0, []) with
  | error f => rw [hB] at h; cases h
  | ok acc =>
    rw [hB] at h
    obtain ⟨data, segments⟩ := acc
    cases hK : keysOutOfOrder (segments.map Prod.fst) 0 with
    | true => simp only [hK] at h; simp at h
    | false =>
      simp only [hK, Bool.false_eq_true, if_false] at h
      cases hL : layoutSegments segments 0 with
      | mk segs' total' =>
        rw [hL] at h
        simp only [Except.ok.injEq] at h
        subst h
        have hfst : segs'.map Prod.fst = segments.map Prod.fst := by
          have := layoutSegments_fst segments 0; rw [hL] at this; exact this
        have hlen : segs'.length = segments.length := by
          have := layoutSegments_length segments 0; rw [hL] at this; exact this
        refine ⟨?_, ?_, ?_⟩
        · rw [hfst, keysOutOfOrder_false _ 0 hK]
          have : (segments.map Prod.fst).length = segs'.length := by simp [hlen]
          rw [this, List.range_eq_range']
        · intro k hk
          have hk' : k < segments.length := hlen ▸ hk
          obtain ⟨p, hp1, hp2⟩ := layoutSegments_offset segments 0 k hk'
          rw [hL] at hp1
          refine ⟨p, hp1, ?_⟩
          have htake := layoutSegments_segSizeSum_take segments 0 k
          rw [hL] at htake
          rw [hp2, htake]
          omega
        · have htot := layoutSegments_total segments 0
          rw [hL] at htot
          have htake := layoutSegments_segSizeSum_take segments 0 segments.length
          rw [hL] at htake
          rw [List.take_length] at htake
          rw [← hlen] at htake
          rw [List.take_length] at htake
          simp only [htot, htake]
          omega

/-- The laid-out const info of the two-segment scenario: segment 0 holds
`[7, 11]` at offset 0, segment 1 holds `[13]` at offset 3, total size 5. -/
def constsLayoutInfo : ConstsInfo :=
  ⟨[(0, ⟨[7, 11], [(100, 0), (101, 1)], 0⟩), (1, ⟨[13], [(102, 0)], 3⟩)], 5⟩

/-- Witness for C6: the two-segment scenario (values `[7, 11]` and `[13]`)
lays out at offsets 0 and 3 with total size 5. -/
theorem c6_const_layout_witness :
    ConstsInfo.new (fun _ _ => none) constsReg (fun _ => none) 3 [10, 11, 12] 100 =
        .ok constsLayoutInfo ∧
      (constsLayoutInfo.segments.map Prod.fst = List.range constsLayoutInfo.segments.length ∧
       (∀ k, k < constsLayoutInfo.segments.length →
          ∃ p, constsLayoutInfo.segments.get? k = some p ∧
            p.2.segment_offset = segSizeSum (constsLayoutInfo.segments.take k)) ∧
       constsLayoutInfo.total_segments_size = segSizeSum constsLayoutInfo.segments) :=
  ⟨by rfl, c6_const_layout (fun _ _ => none) constsReg (fun _ => none) 3 [10, 11, 12] 100
    constsLayoutInfo (by rfl)⟩

/-- The total length of the value vectors of a segment list. -/
def valuesSum (l : List (Nat × ConstSegment)) : Nat :=
  (l.map (fun p => p.2.values.length)).sum

theorem valuesSum_setAssoc : ∀ (m : List (Nat × ConstSegment)) (k : Nat)
    (seg' : ConstSegment) (n : Nat),
    seg'.values.length = (getAssocD default m k).values.length + n →
    valuesSum (setAssoc m k seg') = valuesSum m + n := by
  intro m
  induction m with
  | nil =>
    intro k seg' n hlen
    simp [setAssoc, valuesSum, getAssocD] at hlen ⊢
    simpa [Inhabited.default] using hlen
  | cons p rest ih =>
    intro k seg' n hlen
    by_cases hpk : p.1 = k
    · simp only [setAssoc, getAssocD, hpk, if_true, if_pos] at hlen ⊢
      simp only [valuesSum, List.map_cons, List.sum_cons] at hlen ⊢
      omega
    · simp only [setAssoc, getAssocD, hpk, if_false, if_neg, ite_false] at hlen ⊢
      simp only [valuesSum, List.map_cons, List.sum_cons]
      have := ih k seg' n hlen
      simp only [valuesSum] at this
      omega

theorem segSizeSum_eq (l : List (Nat × ConstSegment)) :
    segSizeSum l = l.length + valuesSum l := by
  induction l with
  | nil => simp [segSizeSum, valuesSum]
  | cons p rest ih =>
    simp only [segSizeSum, valuesSum, List.map_cons, List.sum_cons, List.length_cons] at ih ⊢
    omega

/-- The invariant of `ConstsInfo::new`'s scan: `segments_data_size` counts the
values stored so far, and the budget check has been honoured. -/
def BuildInv (max_size : Nat) (acc : Nat × List (Nat × ConstSegment)) : Prop :=
  acc.1 = valuesSum acc.2 ∧ acc.1 + acc.2.length ≤ max_size

theorem constBuildStep_inv (sel : Nat → Nat → Option Int) (registry : ProgramRegistry)
    (type_sizes : TypeSizeMap) (fuel max_size : Nat)
    (acc acc' : Nat × List (Nat × ConstSegment)) (id : ConcreteLibfuncId)
    (h : constBuildStep sel registry type_sizes fuel max_size acc id = .ok acc')
    (hinv : BuildInv max_size acc) : BuildInv max_size acc' := by
  unfold constBuildStep at h
  cases hlf : registry.get_libfunc id with
  | error e => rw [hlf] at h; cases h
  | ok lf =>
    rw [hlf] at h
    cases lf with
    | Other sig => cases h; exact hinv
    | ConstAsBox segment_id const_ty sig =>
      cases hex : extract_const_value sel registry type_sizes fuel const_ty <;>
        simp only [hex] at h
      case error f => cases h
      case ok cd =>
        split at h
        case isTrue hgt => cases h
        case isFalse hgt =>
          cases h
          refine ⟨?_, by dsimp only; omega⟩
          rw [valuesSum_setAssoc acc.2 segment_id _ cd.length (by simp), hinv.1]

theorem constBuildLoop_inv (sel : Nat → Nat → Option Int) (registry : ProgramRegistry)
    (type_sizes : TypeSizeMap) (fuel max_size : Nat) :
    ∀ (ids : List ConcreteLibfuncId) (acc acc' : Nat × List (Nat × ConstSegment)),
      constBuildLoop sel registry type_sizes fuel max_size ids acc = .ok acc' →
      BuildInv max_size acc → BuildInv max_size acc' := by
  intro ids
  induction ids with
  | nil =>
    intro acc acc' h hinv
    cases h
    exact hinv
  | cons id rest ih =>
    intro acc acc' h hinv
    unfold constBuildLoop at h
    cases hs : constBuildStep sel registry type_sizes fuel max_size acc id with
    | error f => rw [hs] at h; cases h
    | ok acc1 =>
      rw [hs] at h
      exact ih acc1 acc' h
        (constBuildStep_inv sel registry type_sizes fuel max_size acc acc1 id hs hinv)

theorem constsInfo_new_total_le (sel : Nat → Nat → Option Int) (registry : ProgramRegistry)
    (type_sizes : TypeSizeMap) (fuel : Nat) (ids : List ConcreteLibfuncId)
    (max_size : Nat) (info : ConstsInfo)
    (h : ConstsInfo.new sel registry type_sizes fuel ids max_size = .ok info) :
    info.total_segments_size ≤ max_size := by
  unfold ConstsInfo.new at h
  cases hB : constBuildLoop sel registry type_sizes fuel max_size ids (0, []) with
  | error f => rw [hB] at h; cases h
  | ok acc =>
    rw [hB] at h
    obtain ⟨data, segments⟩ := acc
    have hinv : BuildInv max_size (data, segments) :=
      constBuildLoop_inv sel registry type_sizes fuel max_size ids (0, []) (data, segments)
        hB ⟨rfl, Nat.zero_le _⟩
    cases hK : keysOutOfOrder (segments.map Prod.fst) 0 with
    | true => simp only [hK] at h; simp at h
    | false =>
      simp only [hK, Bool.false_eq_true, if_false] at h
      cases hL : layoutSegments segments 0 with
      | mk segs' total' =>
        rw [hL] at h
        simp only [Except.ok.injEq] at h
        subst h
        have htot := layoutSegments_total segments 0
        rw [hL] at htot
        have hssum := segSizeSum_eq segments
        obtain ⟨hdata, hbound⟩ := hinv
        simp only at hdata hbound
        show total' ≤ max_size
        omega

theorem compileStep_ok {A Env : Type} (E : Externals A Env) (registry : ProgramRegistry)
    (type_sizes : TypeSizeMap) (program : Program) (metadata : Metadata)
    (config : SierraToCasmConfig) (statement_idx : Nat) (statement : Statement)
    (st st' : CState A)
    (h : compileStep E registry type_sizes program metadata config statement_idx statement st =
      .ok st') :
    ∃ added info,
      st'.instructions = st.instructions ++ added ∧
      st'.program_offset = st.program_offset + opSizeSum added ∧
      st'.relocations.length ≥ st.relocations.length ∧
      st'.sierra_statement_info = st.sierra_statement_info ++
        [{ code_offset := st'.program_offset
           instruction_idx := st'.instructions.length
           additional_kind_info := info }] := by
  unfold compileStep at h
  by_cases hsize : st.program_offset > config.max_bytecode_size
  · rw [if_pos hsize] at h; cases h
  · rw [if_neg hsize] at h
    cases statement with
    | Return ref_ids =>
      cases hta : E.get_annotations_after_take_args st.annot statement_idx ref_ids with
      | error e => simp only [hta] at h; cases h
      | ok trip =>
        obtain ⟨annot', annotations, return_refs⟩ := trip
        simp only [hta] at h
        by_cases hval : return_refs.all (fun r => E.validate_ref r type_sizes) = true
        · rw [if_pos hval] at h
          cases hrem : annotations.refs with
          | cons p rest => simp only [hrem] at h; obtain ⟨v, r⟩ := p; simp at h
          | nil =>
            simp only [hrem] at h
            cases hvf : E.validate_final_annotations annot' statement_idx annotations
                program.funcs metadata return_refs with
            | error e => simp only [hvf] at h; cases h
            | ok u =>
              simp only [hvf] at h
              cases hcs : E.check_references_on_stack return_refs with
              | error e => cases e <;> simp only [hcs] at h <;> cases h
              | ok u2 =>
                simp only [hcs] at h
                refine ⟨[retInstruction], .Return return_refs, ?_, ?_, ?_, ?_⟩ <;>
                  cases h <;> simp [opSizeSum, retInstruction]
        · rw [if_neg hval] at h
          cases h
    | Invocation invocation =>
      cases hta : E.get_annotations_after_take_args st.annot statement_idx invocation.args with
      | error e => simp only [hta] at h; cases h
      | ok trip =>
        obtain ⟨annot', annotations, invoke_refs⟩ := trip
        simp only [hta] at h
        cases hlf : registry.get_libfunc invocation.libfunc_id with
        | error e => simp only [hlf] at h; cases h
        | ok libfunc =>
          simp only [hlf] at h
          cases hcb : check_basic_structure statement_idx invocation libfunc with
          | error f => simp only [hcb] at h; cases h
          | ok u =>
            simp only [hcb] at h
            cases hctm : E.check_types_match invoke_refs libfunc.param_signatures with
            | error e => simp only [hctm] at h; cases h
            | ok u1 =>
              simp only [hctm] at h
              by_cases hval : invoke_refs.all (fun r => E.validate_ref r type_sizes) = true
              · rw [if_pos hval] at h
                cases hci : E.compile_invocation metadata type_sizes invocation libfunc
                    statement_idx invoke_refs annotations.environment with
                | error e => simp only [hci] at h; cases h
                | ok ci =>
                  simp only [hci] at h
                  cases hbl : branchLoop E registry program statement_idx
                      { annotations with environment := ci.environment }
                      (decide (ci.results.length > 1)) invocation.branches ci.results
                      annot' with
                  | error f => simp only [hbl] at h; cases h
                  | ok annot2 =>
                    simp only [hbl] at h
                    refine ⟨ci.instructions, .Invoke ci.results invoke_refs,
                      ?_, ?_, ?_, ?_⟩ <;> cases h <;> simp [opSizeSum]
              · rw [if_neg hval] at h
                cases h

theorem opSizeSum_append (l₁ l₂ : List Instruction) :
    opSizeSum (l₁ ++ l₂) = opSizeSum l₁ + opSizeSum l₂ := by
  simp [opSizeSum]

theorem compileLoop_ok {A Env : Type} (E : Externals A Env) (registry : ProgramRegistry)
    (type_sizes : TypeSizeMap) (program : Program) (metadata : Metadata)
    (config : SierraToCasmConfig) :
    ∀ (stmts : List Statement) (idx : Nat) (st fin : CState A),
      compileLoop E registry type_sizes program metadata config stmts idx st = .ok fin →
      ∃ addedI addedD,
        fin.instructions = st.instructions ++ addedI ∧
        fin.program_offset = st.program_offset + opSizeSum addedI ∧
        fin.sierra_statement_info = st.sierra_statement_info ++ addedD ∧
        addedD.length = stmts.length := by
  intro stmts
  induction stmts with
  | nil =>
    intro idx st fin h
    cases h
    exact ⟨[], [], by simp, by simp [opSizeSum], by simp, rfl⟩
  | cons s rest ih =>
    intro idx st fin h
    unfold compileLoop at h
    cases hs : compileStep E registry type_sizes program metadata config idx s st with
    | error f => rw [hs] at h; cases h
    | ok st1 =>
      rw [hs] at h
      obtain ⟨aI, aD, hI, hO, hD, hL⟩ := ih (idx + 1) st1 fin h
      obtain ⟨added, info, sI, sO, _, sD⟩ := compileStep_ok E registry type_sizes program
        metadata config idx s st st1 hs
      refine ⟨added ++ aI,
        { code_offset := st1.program_offset, instruction_idx := st1.instructions.length,
          additional_kind_info := info } :: aD, ?_, ?_, ?_, ?_⟩
      · rw [hI, sI, List.append_assoc]
      · rw [hO, sO, opSizeSum_append]; omega
      · rw [hD, sD, List.append_assoc]; rfl
      · simp [hL]

theorem compileLoop_append_ok {A Env : Type} (E : Externals A Env) (registry : ProgramRegistry)
    (type_sizes : TypeSizeMap) (program : Program) (metadata : Metadata)
    (config : SierraToCasmConfig) :
    ∀ (l₁ l₂ : List Statement) (idx : Nat) (st fin : CState A),
      compileLoop E registry type_sizes program metadata config (l₁ ++ l₂) idx st = .ok fin →
      ∃ st1, compileLoop E registry type_sizes program metadata config l₁ idx st = .ok st1 ∧
        compileLoop E registry type_sizes program metadata config l₂ (idx + l₁.length) st1 =
          .ok fin := by
  intro l₁
  induction l₁ with
  | nil =>
    intro l₂ idx st fin h
    exact ⟨st, rfl, by simpa using h⟩
  | cons s rest ih =>
    intro l₂ idx st fin h
    rw [List.cons_append] at h
    unfold compileLoop at h
    cases hs : compileStep E registry type_sizes program metadata config idx s st with
    | error f => rw [hs] at h; cases h
    | ok st1 =>
      rw [hs] at h
      dsimp only at h
      obtain ⟨st2, h1, h2⟩ := ih l₂ (idx + 1) st1 fin h
      refine ⟨st2, ?_, ?_⟩
      · unfold compileLoop
        rw [hs]
        exact h1
      · have harith : idx + (s :: rest).length = idx + 1 + rest.length := by
          simp
          omega
        rw [harith]
        exact h2

theorem compileLoop_last {A Env : Type} (E : Externals A Env) (registry : ProgramRegistry)
    (type_sizes : TypeSizeMap) (program : Program) (metadata : Metadata)
    (config : SierraToCasmConfig) :
    ∀ (rest : List Statement) (s : Statement) (idx : Nat) (st fin : CState A),
      compileLoop E registry type_sizes program metadata config (s :: rest) idx st = .ok fin →
      ∃ info, fin.sierra_statement_info.getLast? =
        some { code_offset := fin.program_offset
               instruction_idx := fin.instructions.length
               additional_kind_info := info } := by
  intro rest
  induction rest with
  | nil =>
    intro s idx st fin h
    unfold compileLoop at h
    cases hs : compileStep E registry type_sizes program metadata config idx s st with
    | error f => rw [hs] at h; cases h
    | ok st1 =>
      rw [hs] at h
      cases h
      obtain ⟨added, info, _, _, _, sD⟩ := compileStep_ok E registry type_sizes program
        metadata config idx s st fin hs
      exact ⟨info, by rw [sD, List.getLast?_concat]⟩
  | cons r rest' ih =>
    intro s idx st fin h
    unfold compileLoop at h
    cases hs : compileStep E registry type_sizes program metadata config idx s st with
    | error f => rw [hs] at h; cases h
    | ok st1 => rw [hs] at h; exact ih r (idx + 1) st1 fin h

/-- Monotonicity relation between consecutive debug entries. -/
def DebugRel (a b : SierraStatementDebugInfo) : Prop :=
  a.code_offset ≤ b.code_offset ∧ a.instruction_idx ≤ b.instruction_idx

/-- The driver-state invariant maintained by the main loop: the running code
offset is the total size of the emitted instructions, the debug entries are
monotone, and every entry is bounded by the current offset and instruction
count. -/
def StInv {A : Type} (st : CState A) : Prop :=
  st.program_offset = opSizeSum st.instructions ∧
  List.Chain' DebugRel st.sierra_statement_info ∧
  ∀ e ∈ st.sierra_statement_info,
    e.code_offset ≤ st.program_offset ∧ e.instruction_idx ≤ st.instructions.length

theorem compileStep_inv {A Env : Type} (E : Externals A Env) (registry : ProgramRegistry)
    (type_sizes : TypeSizeMap) (program : Program) (metadata : Metadata)
    (config : SierraToCasmConfig) (statement_idx : Nat) (statement : Statement)
    (st st' : CState A)
    (h : compileStep E registry type_sizes program metadata config statement_idx statement st =
      .ok st') (hinv : StInv st) : StInv st' := by
  obtain ⟨added, info, hI, hO, _, hD⟩ :=
    compileStep_ok E registry type_sizes program metadata config statement_idx statement
      st st' h
  obtain ⟨inv1, inv2, inv3⟩ := hinv
  have hOle : st.program_offset ≤ st'.program_offset := by rw [hO]; omega
  have hLle : st.instructions.length ≤ st'.instructions.length := by rw [hI]; simp
  refine ⟨?_, ?_, ?_⟩
  · rw [hO, hI, inv1, opSizeSum_append]
  · rw [hD]
    refine List.Chain'.append inv2 (List.chain'_singleton _) ?_
    intro x hx y hy
    simp only [List.head?_cons, Option.mem_def, Option.some.injEq] at hy
    subst hy
    obtain ⟨hne, hxl⟩ := List.mem_getLast?_eq_getLast hx
    have hmem : x ∈ st.sierra_statement_info := hxl ▸ List.getLast_mem hne
    exact ⟨le_trans (inv3 x hmem).1 hOle, le_trans (inv3 x hmem).2 hLle⟩
  · rw [hD]
    intro e he
    rcases List.mem_append.mp he with h1 | h2
    · exact ⟨le_trans (inv3 e h1).1 hOle, le_trans (inv3 e h1).2 hLle⟩
    · simp only [List.mem_singleton] at h2
      subst h2
      exact ⟨le_refl _, le_refl _⟩

theorem compileLoop_inv {A Env : Type} (E : Externals A Env) (registry : ProgramRegistry)
    (type_sizes : TypeSizeMap) (program : Program) (metadata : Metadata)
    (config : SierraToCasmConfig) :
    ∀ (stmts : List Statement) (idx : Nat) (st fin : CState A),
      compileLoop E registry type_sizes program metadata config stmts idx st = .ok fin →
      StInv st → StInv fin := by
  intro stmts
  induction stmts with
  | nil => intro idx st fin h hinv; cases h; exact hinv
  | cons s rest ih =>
    intro idx st fin h hinv
    unfold compileLoop at h
    cases hs : compileStep E registry type_sizes program metadata config idx s st with
    | error f => rw [hs] at h; cases h
    | ok st1 =>
      rw [hs] at h
      exact ih (idx + 1) st1 fin h
        (compileStep_inv E registry type_sizes program metadata config idx s st st1 hs hinv)

theorem compile_ok_parts {A Env : Type} (E : Externals A Env) (fuel : Nat)
    (program : Program) (metadata : Metadata) (config : SierraToCasmConfig)
    (p : CairoProgram) (h : compile E fuel program metadata config = .ok p) :
    ∃ (registry : ProgramRegistry) (type_sizes : TypeSizeMap) (annot0 : A) (stF : CState A),
      E.build_registry program metadata = .ok registry ∧
      E.get_type_size_map program registry = some type_sizes ∧
      E.create_annotations program.statements.length program.funcs metadata
        config.gas_usage_check type_sizes = .ok annot0 ∧
      compileLoop E registry type_sizes program metadata config program.statements 0
        { instructions := [], relocations := [], sierra_statement_info := []
          program_offset := 0, annot := annot0 } = .ok stF ∧
      ¬ stF.program_offset > config.max_bytecode_size ∧
      ∃ consts_info,
        ConstsInfo.new E.get_variant_selector registry type_sizes fuel
          program.libfunc_declarations
          (config.max_bytecode_size - stF.program_offset) = .ok consts_info ∧
        p = { instructions := stF.instructions
              debug_info := { sierra_statement_info := stF.sierra_statement_info ++
                [{ code_offset := stF.program_offset
                   instruction_idx := stF.instructions.length
                   additional_kind_info := .EndMarker }] }
              consts_info := consts_info } := by
  unfold compile at h
  cases hr : E.build_registry program metadata with
  | error e => simp only [hr] at h; cases h
  | ok registry =>
    simp only [hr] at h
    cases hts : E.get_type_size_map program registry with
    | none => simp only [hts] at h; cases h
    | some type_sizes =>
      simp only [hts] at h
      cases hca : E.create_annotations program.statements.length program.funcs metadata
          config.gas_usage_check type_sizes with
      | error e => simp only [hca] at h; cases h
      | ok annot0 =>
        simp only [hca] at h
        cases hloop : compileLoop E registry type_sizes program metadata config
            program.statements 0
            { instructions := [], relocations := [], sierra_statement_info := []
              program_offset := 0, annot := annot0 } with
        | error f => rw [hloop] at h; cases h
        | ok stF =>
          rw [hloop] at h
          dsimp only at h
          by_cases hsz : stF.program_offset > config.max_bytecode_size
          · rw [if_pos hsz] at h; cases h
          · rw [if_neg hsz] at h
            cases hci : ConstsInfo.new E.get_variant_selector registry type_sizes fuel
                program.libfunc_declarations
                (config.max_bytecode_size - stF.program_offset) with
            | error f => rw [hci] at h; cases h
            | ok consts_info =>
              rw [hci] at h
              cases h
              refine ⟨registry, type_sizes, annot0, stF, ?_, ?_, ?_, ?_, ?_,
                consts_info, ?_, ?_⟩ <;> first | rfl | assumption

/-- Claim C9: for every successful `compile` of a program with `N`
statements, the debug-info vector has length `N + 1`; its last entry has kind
`EndMarker`, `code_offset` equal to the sum of the op sizes of all emitted
instructions and `instruction_idx` equal to the length of the instruction
list; and both fields are non-decreasing across consecutive entries. -/
theorem c9_debug_info {A Env : Type} (E : Externals A Env) (fuel : Nat) (program : Program)
    (metadata : Metadata) (config : SierraToCasmConfig) (p : CairoProgram)
    (h : compile E fuel program metadata config = .ok p) :
    p.debug_info.sierra_statement_info.length = program.statements.length + 1 ∧
    p.debug_info.sierra_statement_info.getLast? =
      some { code_offset := opSizeSum p.instructions
             instruction_idx := p.instructions.length
             additional_kind_info := .EndMarker } ∧
    List.Chain' DebugRel p.debug_info.sierra_statement_info := by
  obtain ⟨registry, type_sizes, annot0, stF, hr, hts, hca, hloop, hsz, ci, hci, hp⟩ :=
    compile_ok_parts E fuel program metadata config p h
  subst hp
  have hinv := compileLoop_inv E registry type_sizes program metadata config
    program.statements 0 _ stF hloop ⟨rfl, List.chain'_nil, by simp⟩
  obtain ⟨hoffs, hchain, hbound⟩ := hinv
  obtain ⟨aI, aD, hI, hO, hD, hL⟩ := compileLoop_ok E registry type_sizes program metadata
    config program.statements 0 _ stF hloop
  refine ⟨?_, ?_, ?_⟩
  · simp [hD, hL]
  · rw [List.getLast?_concat]
    dsimp only
    rw [hoffs]
  · refine List.Chain'.append hchain (List.chain'_singleton _) ?_
    intro x hx y hy
    simp only [List.head?_cons, Option.mem_def, Option.some.injEq] at hy
    subst hy
    obtain ⟨hne, hxl⟩ := List.mem_getLast?_eq_getLast hx
    have hmem : x ∈ stF.sierra_statement_info := hxl ▸ List.getLast_mem hne
    exact ⟨(hbound x hmem).1, (hbound x hmem).2⟩

/-- Claim C5: for every successful `compile`, the total output size in words
— the final code-segment offset (the sum of all emitted instruction sizes)
plus `total_segments_size` of the const segments — is at most
`config.max_bytecode_size`.  The failing paths inside `compile` (the
`checked_sub` and the const builder's budget check) both abort with
`CodeSizeLimitExceeded`. -/
theorem c5_size_budget {A Env : Type} (E : Externals A Env) (fuel : Nat) (program : Program)
    (metadata : Metadata) (config : SierraToCasmConfig) (p : CairoProgram)
    (h : compile E fuel program metadata config = .ok p) :
    opSizeSum p.instructions + p.consts_info.total_segments_size ≤
      config.max_bytecode_size := by
  obtain ⟨registry, type_sizes, annot0, stF, hr, hts, hca, hloop, hsz, ci, hci, hp⟩ :=
    compile_ok_parts E fuel program metadata config p h
  subst hp
  have hinv := compileLoop_inv E registry type_sizes program metadata config
    program.statements 0 _ stF hloop ⟨rfl, List.chain'_nil, by simp⟩
  have htot := constsInfo_new_total_le E.get_variant_selector registry type_sizes fuel
    program.libfunc_declarations (config.max_bytecode_size - stF.program_offset) ci hci
  dsimp only
  rw [← hinv.1]
  omega

/-- Claim C4, amended: the debug record for statement `k` stores in
`code_offset` the byte offset at which statement `k`'s emitted code ends —
the offset of the driver state after processing statements `0..k`, which is
where statement `k + 1`'s code begins — and in `instruction_idx` the index
one past that statement's instructions (where the next statement's
instructions begin).  `compilePrefix … (k + 1)` is the driver state after the
first `k + 1` statements. -/
theorem c4_amended_debug_offsets {A Env : Type} (E : Externals A Env) (fuel : Nat)
    (program : Program) (metadata : Metadata) (config : SierraToCasmConfig)
    (p : CairoProgram) (h : compile E fuel program metadata config = .ok p) :
    ∀ k, k < program.statements.length →
      ∃ (st_k : CState A) (e : SierraStatementDebugInfo),
        compilePrefix E program metadata config (k + 1) = .ok st_k ∧
        p.debug_info.sierra_statement_info.get? k = some e ∧
        e.code_offset = st_k.program_offset ∧
        e.instruction_idx = st_k.instructions.length := by
  obtain ⟨registry, type_sizes, annot0, stF, hr, hts, hca, hloop, hsz, ci, hci, hp⟩ :=
    compile_ok_parts E fuel program metadata config p h
  subst hp
  intro k hk
  have hloop' : compileLoop E registry type_sizes program metadata config
      (program.statements.take (k + 1) ++ program.statements.drop (k + 1)) 0
      { instructions := [], relocations := [], sierra_statement_info := []
        program_offset := 0, annot := annot0 } = .ok stF := by
    rw [List.take_append_drop]
    exact hloop
  obtain ⟨st_k, hpre, hrest⟩ := compileLoop_append_ok E registry type_sizes program metadata
    config (program.statements.take (k + 1)) (program.statements.drop (k + 1)) 0 _ stF hloop'
  obtain ⟨aI, aD, _, _, hDpre, hLpre⟩ := compileLoop_ok E registry type_sizes program
    metadata config (program.statements.take (k + 1)) 0 _ st_k hpre
  have hlen_take : (program.statements.take (k + 1)).length = k + 1 := by
    rw [List.length_take]
    omega
  cases htk : program.statements.take (k + 1) with
  | nil => rw [htk] at hlen_take; simp at hlen_take
  | cons s rest =>
    obtain ⟨info, hglast⟩ := compileLoop_last E registry type_sizes program metadata config
      rest s 0 _ st_k (by rw [← htk]; exact hpre)
    have hlenD : st_k.sierra_statement_info.length = k + 1 := by
      rw [hDpre]
      simp [hLpre, hlen_take]
    have hgetk : st_k.sierra_statement_info.get? k = st_k.sierra_statement_info.getLast? := by
      rw [List.getLast?_eq_getElem?, hlenD]
      simp [List.get?_eq_getElem?]
    obtain ⟨aI2, aD2, _, _, hDrest, _⟩ := compileLoop_ok E registry type_sizes program
      metadata config (program.statements.drop (k + 1))
      (0 + (program.statements.take (k + 1)).length) st_k stF hrest
    refine ⟨st_k, { code_offset := st_k.program_offset
                    instruction_idx := st_k.instructions.length
                    additional_kind_info := info }, ?_, ?_, rfl, rfl⟩
    · unfold compilePrefix
      simp only [hr, hts, hca]
      exact hpre
    · dsimp only
      have h1 : stF.sierra_statement_info.length = k + 1 + aD2.length := by
        rw [hDrest, List.length_append, hlenD]
      rw [List.get?_eq_getElem?]
      rw [List.getElem?_append_left (by omega : k < stF.sierra_statement_info.length)]
      rw [hDrest, List.getElem?_append_left (by omega : k < st_k.sierra_statement_info.length)]
      rw [← List.get?_eq_getElem?, hgetk, hglast]

/-- Claim C8: for every `Return` statement, after taking the return
variables out of the environment, if any variable id remains bound (the
annotations' refs map is non-empty) then the driver fails with
`DanglingReferences` carrying the statement's index and the first remaining
variable id. -/
theorem c8_dangling_references {A Env : Type} (E : Externals A Env)
    (registry : ProgramRegistry) (type_sizes : TypeSizeMap) (program : Program)
    (metadata : Metadata) (config : SierraToCasmConfig) (statement_idx : Nat)
    (ref_ids : List VarId) (st : CState A) (annot' : A)
    (annotations : StatementAnnotations Env) (return_refs : List ReferenceValue)
    (v : VarId) (r : ReferenceValue) (rest : List (VarId × ReferenceValue))
    (hsize : ¬ st.program_offset > config.max_bytecode_size)
    (htake : E.get_annotations_after_take_args st.annot statement_idx ref_ids =
      .ok (annot', annotations, return_refs))
    (hval : return_refs.all (fun x => E.validate_ref x type_sizes) = true)
    (hrem : annotations.refs = (v, r) :: rest) :
    compileStep E registry type_sizes program metadata config statement_idx
        (.Return ref_ids) st =
      .error (.err (.DanglingReferences statement_idx v)) := by
  unfold compileStep
  rw [if_neg hsize]
  simp only [htake, hval, hrem, if_true]

theorem branchLoop_append_ok {A Env : Type} (E : Externals A Env)
    (registry : ProgramRegistry) (program : Program) (statement_idx : Nat)
    (upd : StatementAnnotations Env) (branching : Bool) :
    ∀ (pre : List BranchInfo) (preC : List BranchChanges) (annot a1 : A)
      (l₂ : List BranchInfo) (m₂ : List BranchChanges),
      branchLoop E registry program statement_idx upd branching pre preC annot = .ok a1 →
      branchLoop E registry program statement_idx upd branching (pre ++ l₂) (preC ++ m₂)
          annot =
        branchLoop E registry program statement_idx upd branching l₂ m₂ a1 := by
  intro pre
  induction pre with
  | nil =>
    intro preC annot a1 l₂ m₂ h
    cases preC with
    | nil => cases h; rfl
    | cons bc preC' => simp only [branchLoop] at h; cases h
  | cons bi pre' ih =>
    intro preC annot a1 l₂ m₂ h
    cases preC with
    | nil => simp only [branchLoop] at h; cases h
    | cons bc preC' =>
      rw [List.cons_append, List.cons_append]
      cases branching with
      | false =>
        simp only [branchLoop] at h ⊢
        rw [if_neg (show ¬ (false = true) by decide)] at h ⊢
        cases hp : E.propagate_annotations annot statement_idx
            (nextStatement statement_idx bi.target) upd bi bc false with
        | error e => simp only [hp] at h; cases h
        | ok a' =>
          simp only [hp] at h ⊢
          exact ih preC' a' a1 l₂ m₂ h
      | true =>
        simp only [branchLoop] at h ⊢
        rw [if_pos trivial] at h ⊢
        cases hd : program.statements.get? (nextStatement statement_idx bi.target) with
        | none => simp only [hd] at h; cases h
        | some s =>
          simp only [hd] at h ⊢
          cases hba : is_branch_align registry s with
          | error f => simp only [hba] at h; cases h
          | ok b =>
            cases b with
            | false => simp only [hba] at h; cases h
            | true =>
              simp only [hba] at h ⊢
              cases hp : E.propagate_annotations annot statement_idx
                  (nextStatement statement_idx bi.target) upd bi bc true with
              | error e => simp only [hp] at h; cases h
              | ok a' =>
                simp only [hp] at h ⊢
                exact ih preC' a' a1 l₂ m₂ h

/-- Claim C1: (i) a statement is branch-align iff it is an invocation of a
libfunc with exactly one branch signature whose AP-change mode is
`BranchAlign`; (ii) while processing the branches of a branching invocation
(more than one compiled result branch), the first branch whose destination is
not branch-align makes `compile` fail with `ExpectedBranchAlign` carrying the
source statement index and that destination index; (iii) if every branch's
destination is branch-align, the branch loop never produces an
`ExpectedBranchAlign` error. -/
theorem c1_expected_branch_align {A Env : Type} (E : Externals A Env)
    (registry : ProgramRegistry) (program : Program) (statement_idx : Nat)
    (upd : StatementAnnotations Env) :
    (∀ s, is_branch_align registry s = .ok true ↔
       ∃ invocation lf bs, s = .Invocation invocation ∧
         registry.get_libfunc invocation.libfunc_id = .ok lf ∧
         lf.branch_signatures = [bs] ∧ bs.ap_change = .BranchAlign) ∧
    (∀ (pre : List BranchInfo) (preC : List BranchChanges) (annot annot₁ : A)
       (bi : BranchInfo) (bis : List BranchInfo) (bc : BranchChanges)
       (bcs : List BranchChanges) (s : Statement),
       branchLoop E registry program statement_idx upd true pre preC annot = .ok annot₁ →
       program.statements.get? (nextStatement statement_idx bi.target) = some s →
       is_branch_align registry s = .ok false →
       branchLoop E registry program statement_idx upd true (pre ++ bi :: bis)
           (preC ++ bc :: bcs) annot =
         .error (.err (.ExpectedBranchAlign statement_idx
           (nextStatement statement_idx bi.target)))) ∧
    (∀ (bis : List BranchInfo) (bcs : List BranchChanges) (annot : A) (a b : Nat),
       (∀ bi ∈ bis, ∃ s, program.statements.get? (nextStatement statement_idx bi.target) =
          some s ∧ is_branch_align registry s = .ok true) →
       branchLoop E registry program statement_idx upd true bis bcs annot ≠
         .error (.err (.ExpectedBranchAlign a b))) := by
  refine ⟨?_, ?_, ?_⟩
  · intro s
    cases s with
    | Return ids => simp [is_branch_align]
    | Invocation inv =>
      cases hlf : registry.get_libfunc inv.libfunc_id with
      | error e => simp [is_branch_align, hlf]
      | ok lf =>
        cases hbs : lf.branch_signatures with
        | nil => simp [is_branch_align, hlf, hbs]
        | cons b1 rest =>
          cases rest with
          | nil =>
            by_cases hap : b1.ap_change = SierraApChange.BranchAlign
            · simp [is_branch_align, hlf, hbs, hap]
            · simp [is_branch_align, hlf, hbs, hap]
          | cons b2 rest2 => simp [is_branch_align, hlf, hbs]
  · intro pre preC annot annot₁ bi bis bc bcs s hpre hdst hba
    rw [branchLoop_append_ok E registry program statement_idx upd true pre preC annot
      annot₁ (bi :: bis) (bc :: bcs) hpre]
    simp only [branchLoop]
    rw [if_pos trivial]
    simp only [hdst, hba]
  · intro bis
    induction bis with
    | nil =>
      intro bcs annot a b hall
      cases bcs with
      | nil => intro heq; simp only [branchLoop] at heq; cases heq
      | cons bc bcs' => intro heq; simp only [branchLoop] at heq; cases heq
    | cons bi rest ih =>
      intro bcs annot a b hall
      cases bcs with
      | nil => intro heq; simp only [branchLoop] at heq; cases heq
      | cons bc bcs' =>
        obtain ⟨s, hdst, hba⟩ := hall bi (by simp)
        simp only [branchLoop]
        rw [if_pos trivial]
        simp only [hdst, hba]
        cases hp : E.propagate_annotations annot statement_idx
            (nextStatement statement_idx bi.target) upd bi bc true with
        | error e => intro heq; simp only [hp] at heq; cases heq
        | ok a' =>
          simp only [hp]
          exact ih bcs' a' a b (fun bi' hbi' => hall bi' (by simp [hbi'])) 

/-- Claim C10: for a branching invocation (the branch-align check active),
a branch whose target resolves to a statement index at or past the end of the
statement vector makes the driver panic at the
`program.statements[destination_statement_idx.0]` indexing — a panic, which
is distinct from every returned `CompilationError`. -/
theorem c10_branch_target_out_of_bounds {A Env : Type} (E : Externals A Env)
    (registry : ProgramRegistry) (program : Program) (statement_idx : Nat)
    (upd : StatementAnnotations Env) :
    (∀ (pre : List BranchInfo) (preC : List BranchChanges) (annot annot₁ : A)
       (bi : BranchInfo) (bis : List BranchInfo) (bc : BranchChanges)
       (bcs : List BranchChanges),
       branchLoop E registry program statement_idx upd true pre preC annot = .ok annot₁ →
       program.statements.length ≤ nextStatement statement_idx bi.target →
       branchLoop E registry program statement_idx upd true (pre ++ bi :: bis)
         (preC ++ bc :: bcs) annot = .error .panic) ∧
    (∀ e : CompilationError, (CompileFailure.panic : CompileFailure) ≠ .err e) := by
  constructor
  · intro pre preC annot annot₁ bi bis bc bcs hpre hlen
    rw [branchLoop_append_ok E registry program statement_idx upd true pre preC annot
      annot₁ (bi :: bis) (bc :: bcs) hpre]
    simp only [branchLoop]
    rw [if_pos trivial]
    have hnone : program.statements.get? (nextStatement statement_idx bi.target) = none :=
      List.get?_eq_none.mpr hlen
    simp only [hnone]
  · intro e h
    cases h

/-- Empty metadata value for concrete runs. -/
def md0 : Metadata := {}

/-- The result of compiling the one-`Return` program `progRet1`. -/
def progRet1Compiled : CairoProgram :=
  ⟨[⟨1⟩], ⟨[⟨1, 1, .Return []⟩, ⟨1, 1, .EndMarker⟩]⟩, ⟨[], 0⟩⟩

/-- Counterexample for C4: compiling a single empty `Return` succeeds and
the first statement's debug record has `code_offset = 1` (the end of its
one-word code), not 0 as the claim states. -/
theorem c4_counterexample_offsets_mark_ends :
    compile trivialExt 1 progRet1 md0 cfg10 = .ok progRet1Compiled ∧
    progRet1Compiled.debug_info.sierra_statement_info.get? 0 =
      some ⟨1, 1, .Return []⟩ ∧
    (1 : Nat) ≠ 0 :=
  ⟨rfl, rfl, by decide⟩

/-- Witness for the amended C4, at the one-`Return` program: the record of
statement 0 equals the state after processing it (offset 1, one
instruction). -/
theorem c4_amended_debug_offsets_witness :
    ∃ (st_k : CState Unit) (e : SierraStatementDebugInfo),
      compilePrefix trivialExt progRet1 md0 cfg10 (0 + 1) = .ok st_k ∧
      progRet1Compiled.debug_info.sierra_statement_info.get? 0 = some e ∧
      e.code_offset = st_k.program_offset ∧
      e.instruction_idx = st_k.instructions.length :=
  c4_amended_debug_offsets trivialExt 1 progRet1 md0 cfg10 progRet1Compiled rfl 0 (by decide)

/-- Witness for C9 at the one-`Return` program. -/
theorem c9_debug_info_witness :
    progRet1Compiled.debug_info.sierra_statement_info.length =
        progRet1.statements.length + 1 ∧
      progRet1Compiled.debug_info.sierra_statement_info.getLast? =
        some { code_offset := opSizeSum progRet1Compiled.instructions
               instruction_idx := progRet1Compiled.instructions.length
               additional_kind_info := .EndMarker } ∧
      List.Chain' DebugRel progRet1Compiled.debug_info.sierra_statement_info :=
  c9_debug_info trivialExt 1 progRet1 md0 cfg10 progRet1Compiled rfl

/-- Witness for C5 at the one-`Return` program with budget 10. -/
theorem c5_size_budget_witness :
    opSizeSum progRet1Compiled.instructions +
        progRet1Compiled.consts_info.total_segments_size ≤
      cfg10.max_bytecode_size :=
  c5_size_budget trivialExt 1 progRet1 md0 cfg10 progRet1Compiled rfl

/-- Externals whose `take_args` leaves the variable 5 dangling in the
statement annotations. -/
def danglingExt : Externals Unit Unit :=
  { trivialExt with
    get_annotations_after_take_args := fun a _ _ => .ok (a, ⟨[(5, ⟨7⟩)], ()⟩, []) }

/-- Witness for C8: variable 5 is left dangling at the `Return` of
statement 0. -/
theorem c8_dangling_references_witness :
    compileStep danglingExt emptyRegistry (fun _ => none) progRet1 md0 cfg10 0 (.Return [])
        ⟨[], [], [], 0, ()⟩ =
      .error (.err (.DanglingReferences 0 5)) :=
  c8_dangling_references danglingExt emptyRegistry (fun _ => none) progRet1 md0 cfg10 0 []
    ⟨[], [], [], 0, ()⟩ () ⟨[(5, ⟨7⟩)], ()⟩ [] 5 ⟨7⟩ [] (by decide) rfl rfl rfl

/-- A two-statement program: a two-branch invocation of libfunc 3 whose
second branch targets statement 1, which invokes the plain (non
branch-align) libfunc 2. -/
def alignProg : Program :=
  ⟨[.Invocation ⟨3, [], [⟨.Fallthrough, []⟩, ⟨.Statement 1, []⟩]⟩,
    .Invocation ⟨2, [], [⟨.Fallthrough, []⟩]⟩], [], []⟩

/-- Witness for C1: a branching invocation whose second branch targets the
plain invocation at statement 1 fails with `ExpectedBranchAlign 0 1`. -/
theorem c1_expected_branch_align_witness :
    branchLoop trivialExt alignReg alignProg 0 ⟨[], ()⟩ true
        [(⟨.Statement 1, []⟩ : BranchInfo)] [(⟨⟩ : BranchChanges)] () =
      .error (.err (.ExpectedBranchAlign 0 1)) :=
  (c1_expected_branch_align trivialExt alignReg alignProg 0 ⟨[], ()⟩).2.1
    [] [] () () ⟨.Statement 1, []⟩ [] ⟨⟩ []
    (.Invocation ⟨2, [], [⟨.Fallthrough, []⟩]⟩) rfl rfl rfl

/-- Witness for C10: a branch targeting statement 5 of a two-statement
program panics. -/
theorem c10_branch_target_out_of_bounds_witness :
    branchLoop trivialExt alignReg alignProg 0 ⟨[], ()⟩ true
        [(⟨.Statement 5, []⟩ : BranchInfo)] [(⟨⟩ : BranchChanges)] () = .error .panic :=
  (c10_branch_target_out_of_bounds trivialExt alignReg alignProg 0 ⟨[], ()⟩).1
    [] [] () () ⟨.Statement 5, []⟩ [] ⟨⟩ [] rfl (by decide)
